import Mathlib

/-!
Shallow embedding of the MLM commission engine of the `kutbulzamana`
repository, together with proofs about the claims of its specification.

Modelling conventions:
* JavaScript numbers are modelled as `ℚ` (the engine works with decimal
  currency amounts; floating point rounding is outside the claims).
* `async` methods are modelled as explicit state passing; un-awaited
  promises are modelled as completing in program order.
* The JSON-file database (`lowdb`) re-parses the file on every
  `db.read()`, so a record obtained from `getUserById` is a value
  snapshot, not an alias into the store; a later `updateUser` overwrites
  the stored record with the caller's (possibly stale) snapshot.  The
  wallet-credit primitives below implement that net effect.
* Randomly generated identifiers (`Date.now()`, `Math.random()`) carry no
  information used by any claim and are omitted from the records.
-/

/-- `a || b` on JavaScript numbers: `0` is falsy. -/
def jsOr (a b : ℚ) : ℚ := if a = 0 then b else a

/-- `a || b` where `a` is an optional number (e.g. `preferences.maxDepth || 7`). -/
def jsOrOptNat (a : Option Nat) (b : Nat) : Nat :=
  match a with
  | none => b
  | some n => if n = 0 then b else n

/-- Wallet of a member (`user.wallet`). -/
structure Wallet where
  balance : ℚ
  totalEarnings : ℚ
  sponsorBonus : ℚ
  careerBonus : ℚ
  passiveIncome : ℚ
  leadershipBonus : ℚ
deriving DecidableEq, Repr

/-- Career level record (`user.careerLevel`), with the fields the engine reads. -/
structure CareerLevel where
  level : Nat
  name : String
  passiveIncomeRate : ℚ
  commissionRate : ℚ
deriving DecidableEq, Repr

/-- Member record, with the fields read by the commission and placement engines. -/
structure User where
  id : String
  memberId : String
  email : String
  fullName : String
  sponsorId : Option String
  leftChild : Option String
  rightChild : Option String
  isActive : Bool
  totalInvestment : ℚ
  monthlySalesVolume : ℚ
  annualSalesVolume : ℚ
  wallet : Wallet
  careerLevel : CareerLevel
deriving DecidableEq, Repr

/-- `allUsers.find(u => u.id === id)` / `getUserById`. -/
def findUser (users : List User) (id : String) : Option User :=
  users.find? (fun u => u.id = id)

/-- `getUserByEmail`. -/
def findUserByEmail (users : List User) (email : String) : Option User :=
  users.find? (fun u => u.email = email)

/-! ## Monoline commission service (`monoline-commission-service.ts`) -/

/-- One `{ percentage, amount }` entry of the monoline commission structure. -/
structure LevelComm where
  percentage : ℚ
  amount : ℚ
deriving DecidableEq, Repr

/-- `MonolineCommissionStructure`. -/
structure MonolineCommissionStructure where
  productPrice : ℚ
  directSponsorBonus : LevelComm
  level1 : LevelComm
  level2 : LevelComm
  level3 : LevelComm
  level4 : LevelComm
  level5 : LevelComm
  level6 : LevelComm
  level7 : LevelComm
  depthTotalPercentage : ℚ
  depthTotalAmount : ℚ
  passiveIncomePool : LevelComm
  companyFund : LevelComm
deriving DecidableEq, Repr

/-- `MonolineCommissionService.getDefaultCommissionStructure()`. -/
def getDefaultCommissionStructure : MonolineCommissionStructure where
  productPrice := 20
  directSponsorBonus := ⟨15, 3⟩
  level1 := ⟨12.5, 2.50⟩
  level2 := ⟨7.5, 1.50⟩
  level3 := ⟨5.0, 1.00⟩
  level4 := ⟨3.5, 0.70⟩
  level5 := ⟨2.5, 0.50⟩
  level6 := ⟨2.0, 0.40⟩
  level7 := ⟨1.5, 0.30⟩
  depthTotalPercentage := 39.5
  depthTotalAmount := 7.90
  passiveIncomePool := ⟨0.5, 0.10⟩
  companyFund := ⟨45, 9.00⟩

/-- One threshold of `getMembershipRequirements()`. -/
structure Requirement where
  minimumAmount : ℚ
  minimumUnits : Nat
deriving DecidableEq, Repr

/-- `getMembershipRequirements()`. -/
structure MembershipRequirements where
  initialPurchase : Requirement
  monthlyActivity : Requirement
  annualActivity : Requirement
deriving DecidableEq, Repr

def getMembershipRequirements : MembershipRequirements where
  initialPurchase := ⟨100, 5⟩
  monthlyActivity := ⟨20, 1⟩
  annualActivity := ⟨200, 10⟩

/-- The optional `salesData` argument of `checkUserActivity`. -/
structure SalesData where
  monthlySales : ℚ
  annualSales : ℚ
deriving DecidableEq, Repr

/-- Result record of `checkUserActivity`. -/
structure ActivityResult where
  isMonthlyActive : Bool
  isAnnuallyActive : Bool
  isFullyActive : Bool
  hasInitialPurchase : Bool
deriving DecidableEq, Repr

/-- `checkUserActivity(user, salesData?)`.  The source reads
`salesData?.monthlySales || user.monthlySalesVolume || 0`, so a zero (or
absent) override falls through to the stored volume. -/
def checkUserActivity (user : User) (salesData : Option SalesData) : ActivityResult :=
  let requirements := getMembershipRequirements
  let monthly := match salesData with
    | some sd => jsOr sd.monthlySales (jsOr user.monthlySalesVolume 0)
    | none => jsOr user.monthlySalesVolume 0
  let annual := match salesData with
    | some sd => jsOr sd.annualSales (jsOr user.annualSalesVolume 0)
    | none => jsOr user.annualSalesVolume 0
  let initial := jsOr user.totalInvestment 0
  let isMonthlyActive := requirements.monthlyActivity.minimumAmount ≤ monthly
  let isAnnuallyActive := requirements.annualActivity.minimumAmount ≤ annual
  let hasInitialPurchase := requirements.initialPurchase.minimumAmount ≤ initial
  { isMonthlyActive := isMonthlyActive
    isAnnuallyActive := isAnnuallyActive
    isFullyActive := isMonthlyActive && isAnnuallyActive && hasInitialPurchase
    hasInitialPurchase := hasInitialPurchase }

/-- A monoline commission transaction (random ids and timestamps omitted). -/
structure MonolineCommissionTransaction where
  buyerId : String
  productPrice : ℚ
  commissionType : String
  recipientId : String
  level : Option Nat
  percentage : ℚ
  amount : ℚ
  status : String
deriving DecidableEq, Repr

/-- `getUplineChain(user, allUsers, maxLevels)`. -/
def getUplineChain (user : User) (allUsers : List User) : Nat → List User
  | 0 => []
  | maxLevels + 1 =>
    match user.sponsorId.bind (findUser allUsers) with
    | none => []
    | some sponsor => sponsor :: getUplineChain sponsor allUsers maxLevels

/-- The `depthLevels` array of `calculateMonolineCommissions`. -/
def depthLevels (s : MonolineCommissionStructure) : List (Nat × LevelComm) :=
  [(1, s.level1), (2, s.level2), (3, s.level3), (4, s.level4),
   (5, s.level5), (6, s.level6), (7, s.level7)]

/-- One step of the `uplineChain.forEach((uplineUser, index) => ...)` loop:
an active upline member is paid the level amount, an inactive one forfeits
it to the company fund accumulator. -/
def depthStep (s : MonolineCommissionStructure) (buyerId : String) (productPrice : ℚ)
    (acc : List MonolineCommissionTransaction × ℚ) (iu : Nat × User) :
    List MonolineCommissionTransaction × ℚ :=
  match (depthLevels s)[iu.1]? with
  | none => acc
  | some (lvl, lb) =>
    if (checkUserActivity iu.2 none).isFullyActive then
      (acc.1 ++ [{ buyerId := buyerId
                   productPrice := productPrice
                   commissionType := "depth_level_" ++ toString lvl
                   recipientId := iu.2.id
                   level := some lvl
                   percentage := lb.percentage
                   amount := lb.amount
                   status := "pending" }], acc.2)
    else
      (acc.1, acc.2 + lb.amount)

/-- Result record of `calculateMonolineCommissions`. -/
structure MonolineResult where
  transactions : List MonolineCommissionTransaction
  passivePoolAmount : ℚ
  companyFundAmount : ℚ
  totalDistributed : ℚ
  inactiveCommissionsToCompany : ℚ
deriving DecidableEq, Repr

/-- Sum of the amounts of a transaction list (`transactions.reduce((sum, t) => sum + t.amount, 0)`). -/
def txSum (txs : List MonolineCommissionTransaction) : ℚ :=
  txs.foldl (fun sum t => sum + t.amount) 0

/-- Step 1 of `calculateMonolineCommissions`: the direct-sponsor bonus
transaction, created whenever the buyer's sponsor id resolves to a
member, regardless of that sponsor's activity. -/
def directSponsorTxs (buyerId : String) (productPrice : ℚ) (allUsers : List User)
    (s : MonolineCommissionStructure) (buyer : User) :
    List MonolineCommissionTransaction :=
  match buyer.sponsorId.bind (findUser allUsers) with
  | none => []
  | some sponsor =>
      [{ buyerId := buyerId
         productPrice := productPrice
         commissionType := "direct_sponsor"
         recipientId := sponsor.id
         level := none
         percentage := s.directSponsorBonus.percentage
         amount := s.directSponsorBonus.amount
         status := "pending" }]

/-- `calculateMonolineCommissions(buyerId, productPrice, allUsers, commissionStructure?)`.
The source throws `Error('Buyer not found')` when the buyer is absent,
modelled as `Except.error`. -/
def calculateMonolineCommissions (buyerId : String) (productPrice : ℚ)
    (allUsers : List User) (commissionStructure : Option MonolineCommissionStructure) :
    Except String MonolineResult :=
  let structure' := commissionStructure.getD getDefaultCommissionStructure
  match findUser allUsers buyerId with
  | none => Except.error "Buyer not found"
  | some buyer =>
    let sponsorTxs := directSponsorTxs buyerId productPrice allUsers structure' buyer
    let uplineChain := getUplineChain buyer allUsers 7
    let folded := uplineChain.enum.foldl (depthStep structure' buyerId productPrice) (sponsorTxs, 0)
    let passivePoolAmount := structure'.passiveIncomePool.amount
    let companyFundAmount := structure'.companyFund.amount + folded.2
    Except.ok
      { transactions := folded.1
        passivePoolAmount := passivePoolAmount
        companyFundAmount := companyFundAmount
        totalDistributed := txSum folded.1
        inactiveCommissionsToCompany := folded.2 }

/-- One recipient entry of a passive-income distribution. -/
structure PassiveRecipient where
  userId : String
  memberId : String
  amount : ℚ
  status : String
deriving DecidableEq, Repr

/-- Result record of `calculatePassiveIncomeDistribution` (random id and date omitted). -/
structure PassiveIncomeDistribution where
  totalPool : ℚ
  activeMembers : Nat
  amountPerMember : ℚ
  recipients : List PassiveRecipient
deriving DecidableEq, Repr

/-- `calculatePassiveIncomeDistribution(totalPoolAmount, allUsers)`. -/
def calculatePassiveIncomeDistribution (totalPoolAmount : ℚ) (allUsers : List User) :
    PassiveIncomeDistribution :=
  let activeUsers := allUsers.filter (fun user => (checkUserActivity user none).isFullyActive)
  let activeMembers := activeUsers.length
  let amountPerMember : ℚ := if 0 < activeMembers then totalPoolAmount / activeMembers else 0
  { totalPool := totalPoolAmount
    activeMembers := activeMembers
    amountPerMember := amountPerMember
    recipients := activeUsers.map (fun user =>
      { userId := user.id
        memberId := user.memberId
        amount := amountPerMember
        status := "pending" }) }

/-- `processCommissionTransaction(transaction, recipient)`: unconditionally
credits the recipient's wallet with the transaction amount. -/
def processCommissionTransaction (transaction : MonolineCommissionTransaction)
    (recipient : User) : User :=
  { recipient with wallet :=
    { recipient.wallet with
      balance := recipient.wallet.balance + transaction.amount
      totalEarnings := recipient.wallet.totalEarnings + transaction.amount
      sponsorBonus := if transaction.commissionType = "direct_sponsor"
        then recipient.wallet.sponsorBonus + transaction.amount
        else recipient.wallet.sponsorBonus
      careerBonus := if transaction.commissionType.startsWith "depth_level"
        then recipient.wallet.careerBonus + transaction.amount
        else recipient.wallet.careerBonus
      passiveIncome := if transaction.commissionType = "passive_income"
        then recipient.wallet.passiveIncome + transaction.amount
        else recipient.wallet.passiveIncome } }

/-! ## Classic percentage engine (`MLMDatabase`, `part_001`)

The file-backed store (`lowdb`) re-parses its JSON file on every
`db.read()`, so records returned by `getUserById`/`getUserByEmail` are
value snapshots.  Each payout in the classic engine is a
`createTransaction(status: "completed")` — whose embedded
`updateUserWallet` credits `balance` and `totalEarnings` on the stored
record — followed by the caller mutating its stale snapshot's wallet and
persisting it with `updateUser`, which overwrites the whole wallet.  The
net stored effect of one payout is therefore: `balance` and the specific
category accumulator grow by the amount, `totalEarnings` is reverted to
its stale value.  The credit primitives below implement that net effect;
transaction records themselves are not modelled (no claim reads them,
and their persistence is clobbered by the interleaved `db.read()` calls). -/

/-- `updateUser(id, …)` hitting the first record whose id matches
(`findIndex`); a missing id is a no-op. -/
def updateFirst (users : List User) (id : String) (f : User → User) : List User :=
  match users with
  | [] => []
  | u :: rest => if u.id = id then f u :: rest else u :: updateFirst rest id f

/-- Net stored effect of a direct-sponsor payout (see section comment). -/
def creditSponsorBonus (a : ℚ) (u : User) : User :=
  { u with wallet := { u.wallet with
      balance := u.wallet.balance + a
      sponsorBonus := u.wallet.sponsorBonus + a } }

/-- Net stored effect of a binary/depth payout. -/
def creditCareerBonus (a : ℚ) (u : User) : User :=
  { u with wallet := { u.wallet with
      balance := u.wallet.balance + a
      careerBonus := u.wallet.careerBonus + a } }

/-- Net stored effect of a passive-income payout. -/
def creditPassiveIncome (a : ℚ) (u : User) : User :=
  { u with wallet := { u.wallet with
      balance := u.wallet.balance + a
      passiveIncome := u.wallet.passiveIncome + a } }

/-- Net stored effect of the system-fund payout (`admin.wallet.balance += systemFund`). -/
def creditBalance (a : ℚ) (u : User) : User :=
  { u with wallet := { u.wallet with balance := u.wallet.balance + a } }

/-- The decreasing rate table of `distributeBinaryCommissions`. -/
def commissionRates : List ℚ := [0.08, 0.06, 0.05, 0.03, 0.02, 0.015, 0.005]

/-- `traverseUpline` specialised to the `distributeBinaryCommissions`
callback: walk one sponsor link per remaining rate, stop at a missing
link or an inactive upline member (callback returns `false`), otherwise
pay `amount * rate` when positive and continue from the upline member. -/
def distributeBinaryCommissions (amount : ℚ) : List ℚ → String → List User → List User
  | [], _, users => users
  | r :: rest, currentId, users =>
    match (findUser users currentId).bind (fun cu => cu.sponsorId.bind (findUser users)) with
    | none => users
    | some up =>
      if up.isActive then
        let commission := amount * r
        let users' := if 0 < commission
          then updateFirst users up.id (creditCareerBonus commission)
          else users
        distributeBinaryCommissions amount rest up.id users'
      else users

/-- `distributePassiveIncome(amount, userId, levels)`: the recursive call
sits inside the `sponsor && sponsor.isActive && passiveIncomeRate > 0`
guard, so the walk ends at an inactive or zero-rate sponsor. -/
def distributePassiveIncome (amount : ℚ) : Nat → String → List User → List User
  | 0, _, users => users
  | levels + 1, userId, users =>
    match (findUser users userId).bind (fun u => u.sponsorId.bind (findUser users)) with
    | none => users
    | some sp =>
      if sp.isActive ∧ 0 < sp.careerLevel.passiveIncomeRate then
        let baseRate := sp.careerLevel.passiveIncomeRate
        let levelMultiplier : ℚ := ((levels : ℚ) + 1) / 7
        let passiveAmount := amount * baseRate * levelMultiplier / 100
        let users' := if 0 < passiveAmount
          then updateFirst users sp.id (creditPassiveIncome passiveAmount)
          else users
        distributePassiveIncome amount levels sp.id users'
      else users

/-- The hardcoded admin/root lookup email of the classic engine. -/
def adminEmail : String := "psikologabdulkadirkan@gmail.com"

/-- Ids of the sponsor-upline chain as walked by `traverseUpline` /
`distributePassiveIncome` (stops at a missing link). -/
def sponsorUplineIds (users : List User) : Nat → String → List String
  | 0, _ => []
  | n + 1, uid =>
    match (findUser users uid).bind (fun u => u.sponsorId.bind (findUser users)) with
    | none => []
    | some sp => sp.id :: sponsorUplineIds users n sp.id

/-- Phase 1 of `calculateAndDistributeCommissions`: the 10% direct
sponsor bonus, paid only when the sponsor resolves and is active. -/
def classicSponsorPhase (investment : ℚ) (sid : String) (users : List User) : List User :=
  match findUser users sid with
  | none => users
  | some sp =>
    if sp.isActive then updateFirst users sp.id (creditSponsorBonus (investment * 0.1))
    else users

/-- Phases 1–3 of `calculateAndDistributeCommissions` (direct sponsor
bonus, binary network commissions on a 25% pool, passive income on a 5%
pool), for a user that exists and has sponsor id `sid`. -/
def classicPhases123 (investment : ℚ) (userId sid : String) (users : List User) : List User :=
  distributePassiveIncome (investment * 0.05) 7 userId
    (distributeBinaryCommissions (investment * 0.25) commissionRates userId
      (classicSponsorPhase investment sid users))

/-- `calculateAndDistributeCommissions(investment, userId)`: returns
immediately when the user is missing or has no sponsor; otherwise runs
phases 1–3 and then pays the 60% system fund to the admin found by email. -/
def calculateAndDistributeCommissions (investment : ℚ) (userId : String)
    (users : List User) : List User :=
  match (findUser users userId).bind (fun u => u.sponsorId) with
  | none => users
  | some sid =>
    let users3 := classicPhases123 investment userId sid users
    match findUserByEmail users3 adminEmail with
    | some admin => updateFirst users3 admin.id (creditBalance (investment * 0.6))
    | none => users3

/-! ## Product purchase commissions (`distributeProductCommissions`) -/

/-- A product purchase record, with the fields `distributeProductCommissions` reads. -/
structure ProductPurchase where
  id : String
  userId : String
  sponsorId : Option String
  amount : ℚ
  commissionsDistributed : Bool
deriving DecidableEq, Repr

/-- A `ProductCommission` record (`createProductCommission`), random id and date omitted. -/
structure ProductCommission where
  purchaseId : String
  userId : String
  amount : ℚ
  type : String
  level : Nat
deriving DecidableEq, Repr

/-- The slice of the JSON store touched by product-commission distribution. -/
structure ShopDb where
  users : List User
  productPurchases : List ProductPurchase
  productCommissions : List ProductCommission
deriving DecidableEq, Repr

/-- `updateUserWallet(userId, amount, type)` on the user collection. -/
def updateUserWalletL (users : List User) (userId : String) (amount : ℚ)
    (ty : String) : List User :=
  match findUser users userId with
  | none => users
  | some _ =>
    if ty = "deposit" ∨ ty = "commission" ∨ ty = "bonus" then
      updateFirst users userId (fun u =>
        { u with wallet := { u.wallet with
            balance := u.wallet.balance + amount
            totalEarnings := u.wallet.totalEarnings + amount } })
    else if ty = "withdrawal" then
      updateFirst users userId (fun u =>
        { u with wallet := { u.wallet with balance := u.wallet.balance - amount } })
    else users

/-- Modelled from the spec: `distributeNetworkCommissions` is called by
`distributeProductCommissions` but its definition is not among the
provided source files.  Per the specification the product sale's career
and passive shares are "distributed through the network": the buyer's
sponsor-upline chain is walked (the spec's upline walks are bounded by 7
levels), each found member's wallet is credited through
`updateUserWallet` and a commission record is appended; only the member
and commission collections are read or written — purchase records are
untouched.  The exact per-level split is not fixed by the provided
sources; an even split over the found chain is used here. -/
def distributeNetworkCommissionsWalk (amount : ℚ) (purchaseId : String) :
    Nat → String → Nat → ShopDb → ShopDb
  | 0, _, _, db => db
  | n + 1, uid, level, db =>
    match (findUser db.users uid).bind (fun u => u.sponsorId.bind (findUser db.users)) with
    | none => db
    | some sp =>
      let db' : ShopDb :=
        { db with
          users := updateUserWalletL db.users sp.id amount "commission"
          productCommissions := db.productCommissions ++
            [⟨purchaseId, sp.id, amount, "career", level⟩] }
      distributeNetworkCommissionsWalk amount purchaseId n sp.id (level + 1) db'

/-- Modelled from the spec: entry point of the network walk (see
`distributeNetworkCommissionsWalk`). -/
def distributeNetworkCommissions (db : ShopDb) (userId : String) (amount : ℚ)
    (purchaseId : String) : ShopDb :=
  let chainLen := (sponsorUplineIds db.users 7 userId).length
  let share : ℚ := if chainLen = 0 then 0 else amount / chainLen
  distributeNetworkCommissionsWalk share purchaseId 7 userId 1 db

/-- `findIndex`-then-assign on the purchase collection: set
`commissionsDistributed` on the first record with the given id. -/
def setPurchaseDistributed (purchases : List ProductPurchase) (pid : String) :
    List ProductPurchase :=
  match purchases with
  | [] => []
  | p :: rest =>
    if p.id = pid then { p with commissionsDistributed := true } :: rest
    else p :: setPurchaseDistributed rest pid

/-- `purchases.find(p => p.id === pid)`. -/
def findPurchase (purchases : List ProductPurchase) (pid : String) : Option ProductPurchase :=
  purchases.find? (fun p => p.id = pid)

/-- `distributeProductCommissions(purchase)`: guarded by the
`commissionsDistributed` flag, which is checked first and set (on the
stored record) last. -/
def distributeProductCommissions (db : ShopDb) (purchase : ProductPurchase) : ShopDb :=
  if purchase.commissionsDistributed then db
  else
    let commissionAmount := purchase.amount * 0.4
    let sponsorAmount := commissionAmount * 0.25
    let careerAmount := commissionAmount * 0.625
    let passiveAmount := commissionAmount * 0.125
    let db1 : ShopDb := match purchase.sponsorId.bind (findUser db.users) with
      | none => db
      | some sponsor =>
        { db with
          users := updateUserWalletL db.users sponsor.id sponsorAmount "commission"
          productCommissions := db.productCommissions ++
            [⟨purchase.id, sponsor.id, sponsorAmount, "sponsor", 1⟩] }
    let db2 := distributeNetworkCommissions db1 purchase.userId
      (careerAmount + passiveAmount) purchase.id
    { db2 with productPurchases := setPurchaseDistributed db2.productPurchases purchase.id }

/-! ## Tree statistics and binary placement (`part_001`)

The statistics recursions of the source terminate on acyclic sponsor
data; they are embedded with an explicit recursion budget, called with
`users.length + 1` at entry points, which covers every acyclic snapshot
(the in-process caches, transparent to the computed values, are elided). -/

/-- `getDirectReferrals(sponsorId)`. -/
def getDirectReferrals (users : List User) (sponsorId : String) : List User :=
  users.filter (fun u => u.sponsorId = some sponsorId)

/-- `getTotalTeamSize(userId)`: direct referrals plus their team sizes. -/
def getTotalTeamSize (users : List User) : Nat → String → Nat
  | 0, _ => 0
  | fuel + 1, uid =>
    let ds := getDirectReferrals users uid
    ds.length + (ds.map (fun r => getTotalTeamSize users fuel r.id)).sum

/-- `getTeamVolume(userId)`: own `totalInvestment` plus referral volumes. -/
def getTeamVolume (users : List User) : Nat → String → ℚ
  | 0, _ => 0
  | fuel + 1, uid =>
    match findUser users uid with
    | none => 0
    | some u => u.totalInvestment + (getDirectReferrals users uid |>.map
        (fun r => getTeamVolume users fuel r.id)).sum

/-- `getAllTeamMembers(userId)`: direct referrals first, then each
referral's subtree in order. -/
def getAllTeamMembers (users : List User) : Nat → String → List User
  | 0, _ => []
  | fuel + 1, uid =>
    let ds := getDirectReferrals users uid
    ds ++ ds.flatMap (fun r => getAllTeamMembers users fuel r.id)

/-- `calculateMaxDepth(userId, currentDepth)`. -/
def calculateMaxDepth (users : List User) : Nat → String → Nat → Nat
  | 0, _, currentDepth => currentDepth
  | fuel + 1, uid, currentDepth =>
    let ds := getDirectReferrals users uid
    if ds.isEmpty then currentDepth
    else (ds.map (fun r => calculateMaxDepth users fuel r.id (currentDepth + 1))).foldl Nat.max 0

/-- The statistics record consumed by `calculateLegScore`
(`getDetailedLegStats` / `calculateAdvancedLegStats`). -/
structure LegStats where
  teamSize : Nat
  volume : ℚ
  activeMembers : Nat
  maxDepth : Nat
  avgInvestment : ℚ
deriving DecidableEq, Repr

/-- `getDetailedLegStats(userId)` (career distribution and recent growth,
which no scoring formula reads, are elided). -/
def getDetailedLegStats (users : List User) (uid : String) : LegStats :=
  let fuel := users.length + 1
  let teamMembers := getAllTeamMembers users fuel uid
  { teamSize := getTotalTeamSize users fuel uid
    volume := getTeamVolume users fuel uid
    activeMembers := (teamMembers.filter (fun m => m.isActive)).length
    maxDepth := calculateMaxDepth users fuel uid 0
    avgInvestment := if teamMembers.length = 0 then 0
      else (teamMembers.map (fun m => m.totalInvestment)).sum / teamMembers.length }

/-- `calculateLegScore(stats)`: the weighted composite used by the
`balanced` algorithm. -/
def calculateLegScore (stats : LegStats) : ℚ :=
  let sizeWeight : ℚ := 0.4
  let volumeWeight : ℚ := 0.3
  let activeWeight : ℚ := 0.2
  let depthWeight : ℚ := 0.1
  let normalizedSize : ℚ := (stats.teamSize : ℚ) / 100
  let normalizedVolume : ℚ := stats.volume / 10000
  let normalizedActive : ℚ := (stats.activeMembers : ℚ) / 100
  let normalizedDepth : ℚ := (stats.maxDepth : ℚ) / 10
  normalizedSize * sizeWeight + normalizedVolume * volumeWeight +
    normalizedActive * activeWeight + normalizedDepth * depthWeight

/-- The placement algorithms of `findWeakestLeg` / `enhancedAutoPlacement`. -/
inductive PlacementAlgorithm where
  | size_based
  | volume_based
  | depth_first
  | balanced
deriving DecidableEq, Repr

/-- The string name of an algorithm, as returned in placement outcomes. -/
def algName : PlacementAlgorithm → String
  | .size_based => "size_based"
  | .volume_based => "volume_based"
  | .depth_first => "depth_first"
  | .balanced => "balanced"

/-- A binary slot side. -/
inductive Side where
  | left
  | right
deriving DecidableEq, Repr

def Side.str : Side → String
  | .left => "left"
  | .right => "right"

/-- The per-leg score compared by `findWeakestLeg`'s `switch (algorithm)`. -/
def legScoreFor (users : List User) (alg : PlacementAlgorithm) (childId : String) : ℚ :=
  match alg with
  | .size_based => ((getDetailedLegStats users childId).teamSize : ℚ)
  | .volume_based => (getDetailedLegStats users childId).volume
  | .depth_first => ((getDetailedLegStats users childId).maxDepth : ℚ)
  | .balanced => calculateLegScore (getDetailedLegStats users childId)

/-- Result record of `findWeakestLeg`. -/
structure WeakestLeg where
  parentId : String
  position : Side
  depth : Nat
  score : ℚ
deriving DecidableEq, Repr

/-- `findWeakestLeg(userId, algorithm)`: fill an empty slot (left first),
otherwise recurse into the leg whose subtree scores lower (ties go left).
The descent follows child links, so it carries a recursion budget. -/
def findWeakestLeg (users : List User) (alg : PlacementAlgorithm) :
    Nat → String → Option WeakestLeg
  | 0, _ => none
  | fuel + 1, uid =>
    match findUser users uid with
    | none => none
    | some u =>
      match u.leftChild.bind (findUser users), u.rightChild.bind (findUser users) with
      | none, _ => some ⟨uid, .left, 1, 0⟩
      | some _, none => some ⟨uid, .right, 1, 0⟩
      | some lc, some rc =>
        let leftScore := legScoreFor users alg lc.id
        let rightScore := legScoreFor users alg rc.id
        if leftScore ≤ rightScore then
          (findWeakestLeg users alg fuel lc.id).map (fun r => { r with depth := r.depth + 1 })
        else
          (findWeakestLeg users alg fuel rc.id).map (fun r => { r with depth := r.depth + 1 })

/-- An open placement slot (`findAvailablePositions` candidate). -/
structure AvailablePosition where
  parentId : String
  position : Side
  depth : Nat
deriving DecidableEq, Repr

/-- Budgeted body of `findAvailablePositions`: the source recursion
terminates because `currentDepth` strictly increases towards `maxDepth`;
a budget of `maxDepth + 2 - currentDepth` reproduces it exactly. -/
def fapAux (users : List User) (maxDepth : Nat) :
    Nat → String → Nat → List AvailablePosition
  | 0, _, _ => []
  | fuel + 1, startUserId, currentDepth =>
    if maxDepth < currentDepth then []
    else
      match findUser users startUserId with
      | none => []
      | some user =>
        (match user.leftChild with
         | none => [⟨startUserId, .left, currentDepth⟩]
         | some lc => fapAux users maxDepth fuel lc (currentDepth + 1)) ++
        (match user.rightChild with
         | none => [⟨startUserId, .right, currentDepth⟩]
         | some rc => fapAux users maxDepth fuel rc (currentDepth + 1))

/-- `findAvailablePositions(startUserId, maxDepth, currentDepth = 1)`. -/
def findAvailablePositions (users : List User) (startUserId : String)
    (maxDepth : Nat) (currentDepth : Nat) : List AvailablePosition :=
  fapAux users maxDepth (maxDepth + 2 - currentDepth) startUserId currentDepth

/-- Placement preferences (`preferences` argument).  Absent boolean
preferences are falsy, so they are plain `Bool`s defaulting to `false`. -/
inductive PreferredSide where
  | left
  | right
  | auto
deriving DecidableEq, Repr

structure PlacementPreferences where
  algorithm : Option PlacementAlgorithm := none
  maxDepth : Option Nat := none
  preferredSide : Option PreferredSide := none
  considerCareerLevel : Bool := false
  avoidOverloading : Bool := false
deriving DecidableEq, Repr

/-- `scoreByTeamSize`: size of the sibling leg (0 when it is open). -/
def scoreByTeamSize (users : List User) (parentId : String) (position : Side) : ℚ :=
  match findUser users parentId with
  | none => 0
  | some parent =>
    match (if position = Side.left then parent.rightChild else parent.leftChild) with
    | none => 0
    | some otherSide => ((getTotalTeamSize users (users.length + 1) otherSide : Nat) : ℚ)

/-- `scoreByVolume`: sibling-leg volume scaled down by 1000. -/
def scoreByVolume (users : List User) (parentId : String) (position : Side) : ℚ :=
  match findUser users parentId with
  | none => 0
  | some parent =>
    match (if position = Side.left then parent.rightChild else parent.leftChild) with
    | none => 0
    | some otherSide => getTeamVolume users (users.length + 1) otherSide / 1000

/-- `scoreByDepth`: sibling-leg max depth scaled by 5. -/
def scoreByDepth (users : List User) (parentId : String) (position : Side) : ℚ :=
  match findUser users parentId with
  | none => 0
  | some parent =>
    match (if position = Side.left then parent.rightChild else parent.leftChild) with
    | none => 0
    | some otherSide => ((calculateMaxDepth users (users.length + 1) otherSide 0 : Nat) : ℚ) * 5

/-- `scoreByBalance`: weighted combination used by the `balanced` algorithm. -/
def scoreByBalance (users : List User) (parentId : String) (position : Side) : ℚ :=
  scoreByTeamSize users parentId position * 0.5 +
    scoreByVolume users parentId position * 0.3 +
    scoreByDepth users parentId position * 0.2

/-- `calculateOverloadPenalty(parentId)`. -/
def calculateOverloadPenalty (users : List User) (parentId : String) : ℚ :=
  match findUser users parentId with
  | none => 0
  | some parent =>
    let leftSize := match parent.leftChild with
      | none => 0
      | some lc => getTotalTeamSize users (users.length + 1) lc
    let rightSize := match parent.rightChild with
      | none => 0
      | some rc => getTotalTeamSize users (users.length + 1) rc
    let imbalance : ℚ := |((leftSize : ℚ)) - ((rightSize : ℚ))|
    if 10 < imbalance then imbalance * 2 else 0

/-- `calculateCareerBonus(parentId)`. -/
def calculateCareerBonus (users : List User) (parentId : String) : ℚ :=
  match findUser users parentId with
  | none => 0
  | some parent => (parent.careerLevel.level : ℚ) * 2

/-- `scorePlacementPosition(position, algorithm, preferences)`:
`none` stands for the JavaScript `Infinity` returned for an invalid
position (a missing parent). -/
def scorePlacementPosition (users : List User) (position : AvailablePosition)
    (alg : PlacementAlgorithm) (prefs : PlacementPreferences) : Option ℚ :=
  match findUser users position.parentId with
  | none => none
  | some _ =>
    let base : ℚ := (position.depth : ℚ) * 10
    let algScore : ℚ := match alg with
      | .size_based => scoreByTeamSize users position.parentId position.position
      | .volume_based => scoreByVolume users position.parentId position.position
      | .depth_first => scoreByDepth users position.parentId position.position
      | .balanced => scoreByBalance users position.parentId position.position
    let withPenalty := base + algScore +
      (if prefs.avoidOverloading then calculateOverloadPenalty users position.parentId else 0)
    some (withPenalty -
      (if prefs.considerCareerLevel then calculateCareerBonus users position.parentId else 0))

/-- A scored candidate (`{ ...candidate, score }`); `score = none` is `Infinity`. -/
structure ScoredPosition where
  parentId : String
  position : Side
  depth : Nat
  score : Option ℚ
deriving DecidableEq, Repr

/-- The `(a, b) => a.score - b.score` order with `Infinity` on top. -/
def scoreLtB (a b : Option ℚ) : Bool :=
  match a, b with
  | none, _ => false
  | some _, none => true
  | some x, some y => x < y

/-- `sort`-ascending-then-take-first on a stable sort: the earliest
candidate with minimal score. -/
def pickFirstMin (l : List ScoredPosition) : Option ScoredPosition :=
  match l with
  | [] => none
  | h :: t => some (t.foldl (fun best c => if scoreLtB c.score best.score then c else best) h)

/-- `findOptimalPlacement(sponsorId, algorithm, maxDepth, preferences)`. -/
def findOptimalPlacement (users : List User) (sponsorId : String)
    (alg : PlacementAlgorithm) (maxDepth : Nat) (prefs : PlacementPreferences) :
    Option ScoredPosition :=
  let candidates := findAvailablePositions users sponsorId maxDepth 1
  match candidates with
  | [] => none
  | _ =>
    pickFirstMin (candidates.map (fun c =>
      ⟨c.parentId, c.position, c.depth, scorePlacementPosition users c alg prefs⟩))

/-- `executeBinaryPlacement(userId, parentId, position)`: a missing
parent throws (`Except.error`); otherwise the chosen child slot and the
new member's sponsor pointer are set. -/
def executeBinaryPlacement (users : List User) (userId parentId : String)
    (position : Side) : Except String (List User) :=
  match findUser users parentId with
  | none => Except.error "Parent user not found"
  | some _ =>
    let users1 := if position = Side.left
      then updateFirst users parentId (fun p => { p with leftChild := some userId })
      else updateFirst users parentId (fun p => { p with rightChild := some userId })
    Except.ok (updateFirst users1 userId (fun u => { u with sponsorId := some parentId }))

/-- Outcome record of `enhancedAutoPlacement` (the informational `stats`
payload of the success branch is elided). -/
structure PlacementOutcome where
  success : Bool
  placement : Option ScoredPosition
  message : String
  algorithm : String
deriving DecidableEq, Repr

/-- `enhancedAutoPlacement(newUserId, sponsorId, preferences)`.  The
preferred-side shortcut calls `placeBinaryUser(newUserId, sponsorId)`
with empty preferences, which (the sponsor id being present) is exactly
a recursive `enhancedAutoPlacement` call with default preferences —
inlined here with a budget (the inner call cannot take the shortcut
again, so one unit suffices in practice); the admin audit log written on
success is elided. -/
def enhancedAutoPlacement (users : List User) :
    Nat → String → String → PlacementPreferences → PlacementOutcome × List User
  | 0, _, _, prefs =>
    (⟨false, none, "Yerleştirme sırasında hata oluştu.",
      algName (prefs.algorithm.getD .balanced)⟩, users)
  | fuel + 1, newUserId, sponsorId, prefs =>
    match findUser users sponsorId with
    | none => (⟨false, none, "Sponsor bulunamadı.", "none"⟩, users)
    | some sponsor =>
      let alg := prefs.algorithm.getD .balanced
      let maxDepth := jsOrOptNat prefs.maxDepth 7
      let shortcut : Option Side := match prefs.preferredSide with
        | some PreferredSide.left => if sponsor.leftChild = none then some Side.left else none
        | some PreferredSide.right => if sponsor.rightChild = none then some Side.right else none
        | _ => none
      match shortcut with
      | some side =>
        let users' := (enhancedAutoPlacement users fuel newUserId sponsorId {}).2
        (⟨true, some ⟨sponsorId, side, 1, none⟩,
          "Kullanıcı " ++ side.str ++ " tarafa yerleştirildi.", "preferred_side"⟩, users')
      | none =>
        match findOptimalPlacement users sponsorId alg maxDepth prefs with
        | none => (⟨false, none, "Uygun yerleştirme pozisyonu bulunamadı.", algName alg⟩, users)
        | some placement =>
          match executeBinaryPlacement users newUserId placement.parentId placement.position with
          | Except.error _ =>
            (⟨false, none, "Yerleştirme sırasında hata oluştu.", algName alg⟩, users)
          | Except.ok users' =>
            (⟨true, some placement,
              "Kullanıcı başarıyla " ++ placement.position.str ++
                " tarafa yerleştirildi (Derinlik: " ++ toString placement.depth ++ ").",
              algName alg⟩, users')

/-! ## Concrete member snapshots used by witnesses and counterexamples -/

def walletZ : Wallet := ⟨0, 0, 0, 0, 0, 0⟩

/-- A career level with zero passive-income rate. -/
def careerZ : CareerLevel := ⟨1, "Emmare", 0, 0⟩

/-- A career level with a positive passive-income rate. -/
def careerP : CareerLevel := ⟨2, "Levvame", 5, 8⟩

/-- Member-record builder for flat (childless) snapshots. -/
def mkMember (id : String) (sp : Option String) (active : Bool)
    (m a t : ℚ) (cl : CareerLevel) : User :=
  ⟨id, "MBR-" ++ id, id ++ "@example.com", id, sp, none, none, active, t, m, a, walletZ, cl⟩

/-- Buyer with a full seven-level upline chain, every member fully active
(monthly 20, annual 200, lifetime 100). -/
def usersC1 : List User :=
  [mkMember "b" (some "s1") true 20 200 100 careerZ,
   mkMember "s1" (some "s2") true 20 200 100 careerZ,
   mkMember "s2" (some "s3") true 20 200 100 careerZ,
   mkMember "s3" (some "s4") true 20 200 100 careerZ,
   mkMember "s4" (some "s5") true 20 200 100 careerZ,
   mkMember "s5" (some "s6") true 20 200 100 careerZ,
   mkMember "s6" (some "s7") true 20 200 100 careerZ,
   mkMember "s7" none true 20 200 100 careerZ]

/-- Chain b → s1 → s2 where s1 is inactive (with a positive passive rate)
and s2 is active with a positive passive rate. -/
def usersC2 : List User :=
  [mkMember "b" (some "s1") true 20 200 100 careerP,
   mkMember "s1" (some "s2") false 20 200 100 careerP,
   mkMember "s2" none true 20 200 100 careerP]

/-- A member with no sponsor, alongside the admin root member. -/
def usersC3x : List User :=
  [mkMember "b" none true 20 200 100 careerZ,
   { mkMember "adm" none true 20 200 100 careerZ with email := adminEmail }]

/-- A member with an (inactive) sponsor, alongside the admin root member. -/
def usersC3w : List User :=
  [mkMember "b" (some "s") true 20 200 100 careerZ,
   mkMember "s" none false 20 200 100 careerZ,
   { mkMember "adm" none true 20 200 100 careerZ with email := adminEmail }]

/-- Member with monthly sales of 19 (other thresholds met). -/
def userM19 : User := mkMember "m19" none true 19 200 100 careerZ

/-- Member with monthly sales of exactly 20 (other thresholds met). -/
def userM20 : User := mkMember "m20" none true 20 200 100 careerZ

/-- Three fully active members and one inactive member. -/
def usersC7 : List User :=
  [mkMember "m1" none true 20 200 100 careerZ,
   mkMember "m2" none true 20 200 100 careerZ,
   mkMember "m3" none true 20 200 100 careerZ,
   mkMember "m4" none true 19 200 100 careerZ]

/-- A commission transaction of amount 5. -/
def txC6 : MonolineCommissionTransaction :=
  ⟨"b", 20, "direct_sponsor", "s", none, 15, 5, "pending"⟩

def userC6 : User := mkMember "s" none true 20 200 100 careerZ

/-- A shop database with one undistributed purchase. -/
def purchaseC6 : ProductPurchase := ⟨"p1", "b", some "s", 100, false⟩

def dbC6 : ShopDb :=
  { users := [mkMember "b" (some "s") true 20 200 100 careerZ,
              mkMember "s" none true 20 200 100 careerZ]
    productPurchases := [purchaseC6]
    productCommissions := [] }

/-- Binary tree: root `r` with occupied slots `lft` and `rgt`; the
left-leg root `lft` has one sponsor-referral `x`, so the left leg scores
strictly higher than the empty-statistics right leg. -/
def usersC5 : List User :=
  [{ mkMember "r" none true 20 200 100 careerZ with
      leftChild := some "lft", rightChild := some "rgt" },
   mkMember "lft" none true 20 200 100 careerZ,
   mkMember "rgt" none true 0 0 0 careerZ,
   mkMember "x" (some "lft") true 20 200 50 careerZ]

/-- Binary tree with no open slot at depth 1: both slots of `r` occupied. -/
def usersC8 : List User :=
  [{ mkMember "r" none true 20 200 100 careerZ with
      leftChild := some "lft", rightChild := some "rgt" },
   mkMember "lft" none true 20 200 100 careerZ,
   mkMember "rgt" none true 20 200 100 careerZ]

/-- Preferences bounding the placement search to depth 1. -/
def prefsC8 : PlacementPreferences := { maxDepth := some 1 }

/-! ## Helper lemmas -/

theorem jsOr_zero (x : ℚ) : jsOr x 0 = x := by
  unfold jsOr
  split
  · simp_all
  · rfl

theorem findUser_id {users : List User} {x : String} {u : User}
    (h : findUser users x = some u) : u.id = x := by
  unfold findUser at h
  have := List.find?_some h
  simpa using this

theorem findUser_updateFirst (users : List User) (r X : String) (f : User → User)
    (hid : ∀ u, (f u).id = u.id) :
    findUser (updateFirst users r f) X =
      if X = r then (findUser users r).map f else findUser users X := by
  induction users with
  | nil => simp [updateFirst, findUser]
  | cons u rest ih =>
    by_cases hur : u.id = r
    · by_cases hX : X = r
      · subst hX
        simp [updateFirst, if_pos hur, findUser, List.find?, hid, hur]
      · simp [updateFirst, if_pos hur, findUser, List.find?, hid, hur, hX,
          Ne.symm hX]
    · by_cases huX : u.id = X
      · have hX : ¬ X = r := by
          intro h
          exact hur (h ▸ huX)
        simp [updateFirst, if_neg hur, findUser, List.find?, huX, hX]
      · by_cases hX : X = r
        · subst hX
          simp only [updateFirst, if_neg hur, findUser, List.find?, huX] at ih ⊢
          simpa [huX, hur] using ih
        · simp only [updateFirst, if_neg hur, findUser, List.find?, huX] at ih ⊢
          simpa [huX, hX] using ih

theorem sponsorUplineIds_updateFirst (users : List User) (r : String) (f : User → User)
    (hid : ∀ u, (f u).id = u.id) (hsp : ∀ u, (f u).sponsorId = u.sponsorId) :
    ∀ n uid, sponsorUplineIds (updateFirst users r f) n uid = sponsorUplineIds users n uid := by
  intro n
  induction n with
  | zero => intro uid; rfl
  | succ n ih =>
    intro uid
    simp only [sponsorUplineIds]
    rw [findUser_updateFirst users r uid f hid]
    split_ifs with h
    · rw [h]
      cases hcu : findUser users r with
      | none => rfl
      | some cu =>
        simp only [Option.map_some', Option.some_bind, hsp]
        cases hsid : cu.sponsorId with
        | none => rfl
        | some sid =>
          simp only [Option.some_bind]
          rw [findUser_updateFirst users r sid f hid]
          split_ifs with h2
          · rw [h2]
            cases hsp2 : findUser users r with
            | none => rfl
            | some sp => simp only [Option.map_some', hid, ih]
          · cases hsp2 : findUser users sid with
            | none => rfl
            | some sp => simp only [ih]
    · cases hcu : findUser users uid with
      | none => rfl
      | some cu =>
        simp only [Option.some_bind]
        cases hsid : cu.sponsorId with
        | none => rfl
        | some sid =>
          simp only [Option.some_bind]
          rw [findUser_updateFirst users r sid f hid]
          split_ifs with h2
          · rw [h2]
            cases hsp2 : findUser users r with
            | none => rfl
            | some sp => simp only [Option.map_some', hid, ih]
          · cases hsp2 : findUser users sid with
            | none => rfl
            | some sp => simp only [ih]

theorem creditSponsorBonus_id (a : ℚ) (u : User) : (creditSponsorBonus a u).id = u.id := rfl
theorem creditSponsorBonus_sponsorId (a : ℚ) (u : User) :
    (creditSponsorBonus a u).sponsorId = u.sponsorId := rfl
theorem creditCareerBonus_id (a : ℚ) (u : User) : (creditCareerBonus a u).id = u.id := rfl
theorem creditCareerBonus_sponsorId (a : ℚ) (u : User) :
    (creditCareerBonus a u).sponsorId = u.sponsorId := rfl
theorem creditPassiveIncome_id (a : ℚ) (u : User) : (creditPassiveIncome a u).id = u.id := rfl
theorem creditPassiveIncome_sponsorId (a : ℚ) (u : User) :
    (creditPassiveIncome a u).sponsorId = u.sponsorId := rfl
theorem creditBalance_id (a : ℚ) (u : User) : (creditBalance a u).id = u.id := rfl

/-- The binary-commission walk leaves every member outside the walked
sponsor chain untouched. -/
theorem distributeBinaryCommissions_frame (a : ℚ) :
    ∀ (rates : List ℚ) (uid : String) (users : List User) (X : String),
      X ∉ sponsorUplineIds users rates.length uid →
      findUser (distributeBinaryCommissions a rates uid users) X = findUser users X := by
  intro rates
  induction rates with
  | nil => intro uid users X _; rfl
  | cons r rest ih =>
    intro uid users X hX
    simp only [List.length_cons, sponsorUplineIds] at hX
    simp only [distributeBinaryCommissions]
    cases hcu : findUser users uid with
    | none => rfl
    | some cu =>
      rw [hcu] at hX
      simp only [Option.some_bind] at hX ⊢
      cases hsid : cu.sponsorId with
      | none => rfl
      | some sid =>
        rw [hsid] at hX
        simp only [Option.some_bind] at hX ⊢
        cases hup : findUser users sid with
        | none => rfl
        | some up =>
          rw [hup] at hX
          simp only [List.mem_cons, not_or] at hX
          obtain ⟨hX1, hX2⟩ := hX
          by_cases hact : up.isActive
          · simp only [hact, if_true]
            by_cases hc : 0 < a * r
            · rw [if_pos hc]
              have hreq :
                  sponsorUplineIds (updateFirst users up.id (creditCareerBonus (a * r)))
                      rest.length up.id = sponsorUplineIds users rest.length up.id :=
                sponsorUplineIds_updateFirst users up.id (creditCareerBonus (a * r))
                  (creditCareerBonus_id (a * r)) (creditCareerBonus_sponsorId (a * r))
                  rest.length up.id
              rw [ih up.id _ X (by rw [hreq]; exact hX2)]
              rw [findUser_updateFirst users up.id X (creditCareerBonus (a * r))
                (creditCareerBonus_id (a * r))]
              rw [if_neg hX1]
            · rw [if_neg hc]
              exact ih up.id users X hX2
          · simp [hact]

/-- The passive-income walk leaves every member outside the walked
sponsor chain untouched. -/
theorem distributePassiveIncome_frame (a : ℚ) :
    ∀ (levels : Nat) (uid : String) (users : List User) (X : String),
      X ∉ sponsorUplineIds users levels uid →
      findUser (distributePassiveIncome a levels uid users) X = findUser users X := by
  intro levels
  induction levels with
  | zero => intro uid users X _; rfl
  | succ n ih =>
    intro uid users X hX
    simp only [sponsorUplineIds] at hX
    simp only [distributePassiveIncome]
    cases hcu : findUser users uid with
    | none => rfl
    | some cu =>
      rw [hcu] at hX
      simp only [Option.some_bind] at hX ⊢
      cases hsid : cu.sponsorId with
      | none => rfl
      | some sid =>
        rw [hsid] at hX
        simp only [Option.some_bind] at hX ⊢
        cases hup : findUser users sid with
        | none => rfl
        | some sp =>
          rw [hup] at hX
          simp only [List.mem_cons, not_or] at hX
          obtain ⟨hX1, hX2⟩ := hX
          by_cases hact : sp.isActive ∧ 0 < sp.careerLevel.passiveIncomeRate
          · simp only [if_pos hact]
            by_cases hc : 0 < a * sp.careerLevel.passiveIncomeRate * (((n : ℚ) + 1) / 7) / 100
            · rw [if_pos hc]
              have hreq :
                  sponsorUplineIds
                      (updateFirst users sp.id (creditPassiveIncome
                        (a * sp.careerLevel.passiveIncomeRate * (((n : ℚ) + 1) / 7) / 100)))
                      n sp.id = sponsorUplineIds users n sp.id :=
                sponsorUplineIds_updateFirst users sp.id _
                  (creditPassiveIncome_id _) (creditPassiveIncome_sponsorId _) n sp.id
              rw [ih sp.id _ X (by rw [hreq]; exact hX2)]
              rw [findUser_updateFirst users sp.id X _ (creditPassiveIncome_id _)]
              rw [if_neg hX1]
            · rw [if_neg hc]
              exact ih sp.id users X hX2
          · simp only [if_neg hact]

/-- The binary-commission walk does not change any sponsor-upline chain. -/
theorem sponsorUplineIds_distributeBinaryCommissions (a : ℚ) :
    ∀ (rates : List ℚ) (uid : String) (users : List User) (n : Nat) (v : String),
      sponsorUplineIds (distributeBinaryCommissions a rates uid users) n v =
        sponsorUplineIds users n v := by
  intro rates
  induction rates with
  | nil => intro uid users n v; rfl
  | cons r rest ih =>
    intro uid users n v
    simp only [distributeBinaryCommissions]
    cases hcu : findUser users uid with
    | none => rfl
    | some cu =>
      simp only [Option.some_bind]
      cases hsid : cu.sponsorId with
      | none => rfl
      | some sid =>
        simp only [Option.some_bind]
        cases hup : findUser users sid with
        | none => rfl
        | some up =>
          by_cases hact : up.isActive
          · simp only [hact, if_true]
            by_cases hc : 0 < a * r
            · rw [if_pos hc]
              rw [ih up.id _ n v]
              exact sponsorUplineIds_updateFirst users up.id _
                (creditCareerBonus_id _) (creditCareerBonus_sponsorId _) n v
            · rw [if_neg hc]
              exact ih up.id users n v
          · simp [hact]

/-- The passive-income walk does not change any sponsor-upline chain. -/
theorem sponsorUplineIds_distributePassiveIncome (a : ℚ) :
    ∀ (levels : Nat) (uid : String) (users : List User) (n : Nat) (v : String),
      sponsorUplineIds (distributePassiveIncome a levels uid users) n v =
        sponsorUplineIds users n v := by
  intro levels
  induction levels with
  | zero => intro uid users n v; rfl
  | succ m ih =>
    intro uid users n v
    simp only [distributePassiveIncome]
    cases hcu : findUser users uid with
    | none => rfl
    | some cu =>
      simp only [Option.some_bind]
      cases hsid : cu.sponsorId with
      | none => rfl
      | some sid =>
        simp only [Option.some_bind]
        cases hup : findUser users sid with
        | none => rfl
        | some sp =>
          by_cases hact : sp.isActive ∧ 0 < sp.careerLevel.passiveIncomeRate
          · simp only [if_pos hact]
            by_cases hc : 0 < a * sp.careerLevel.passiveIncomeRate * (((m : ℚ) + 1) / 7) / 100
            · rw [if_pos hc]
              rw [ih sp.id _ n v]
              exact sponsorUplineIds_updateFirst users sp.id _
                (creditPassiveIncome_id _) (creditPassiveIncome_sponsorId _) n v
            · rw [if_neg hc]
              exact ih sp.id users n v
          · simp only [if_neg hact]

theorem txSum_foldl (xs : List MonolineCommissionTransaction) :
    ∀ a : ℚ, xs.foldl (fun sum t => sum + t.amount) a = a + txSum xs := by
  induction xs with
  | nil => intro a; simp [txSum]
  | cons x rest ih =>
    intro a
    simp only [List.foldl_cons]
    rw [ih (a + x.amount)]
    have hx : txSum (x :: rest) = x.amount + txSum rest := by
      show (x :: rest).foldl (fun sum t => sum + t.amount) 0 = x.amount + txSum rest
      simp only [List.foldl_cons]
      rw [ih (0 + x.amount)]
      ring
    rw [hx]
    ring

theorem txSum_append_one (xs : List MonolineCommissionTransaction)
    (t : MonolineCommissionTransaction) : txSum (xs ++ [t]) = txSum xs + t.amount := by
  show (xs ++ [t]).foldl (fun sum u => sum + u.amount) 0 = txSum xs + t.amount
  rw [List.foldl_append, List.foldl_cons, List.foldl_nil, txSum_foldl xs 0]
  ring

/-- The level amount consumed at one enumerated upline index. -/
def levelAmountAt (s : MonolineCommissionStructure) (i : Nat) : ℚ :=
  match (depthLevels s)[i]? with
  | some lv => lv.2.amount
  | none => 0

/-- Each step of the depth loop moves the level amount either into the
paid-transaction sum or into the forfeiture accumulator, so their sum
grows by exactly the level amount. -/
theorem depthFold_sum (s : MonolineCommissionStructure) (b : String) (p : ℚ) :
    ∀ (l : List (Nat × User)) (acc : List MonolineCommissionTransaction × ℚ),
      txSum (l.foldl (depthStep s b p) acc).1 + (l.foldl (depthStep s b p) acc).2 =
        txSum acc.1 + acc.2 + (l.map (fun iu => levelAmountAt s iu.1)).sum := by
  intro l
  induction l with
  | nil => intro acc; simp
  | cons iu rest ih =>
    intro acc
    simp only [List.foldl_cons, List.map_cons, List.sum_cons, ih]
    unfold depthStep levelAmountAt
    cases (depthLevels s)[iu.1]? with
    | none => ring
    | some lv =>
      obtain ⟨lvl, lb⟩ := lv
      by_cases hact : (checkUserActivity iu.2 none).isFullyActive
      · simp only [hact, if_true, txSum_append_one]
        ring
      · simp only [hact]
        simp only [Bool.false_eq_true, if_false]
        ring

theorem enum_levelAmount_sum (s : MonolineCommissionStructure) (chain : List User) :
    (chain.enum.map (fun iu => levelAmountAt s iu.1)).sum =
      ((List.range chain.length).map (levelAmountAt s)).sum := by
  have h : (fun iu : Nat × User => levelAmountAt s iu.1) = (levelAmountAt s) ∘ Prod.fst := rfl
  rw [h, ← List.map_map, List.enum_map_fst]

/-- The amount of the direct-sponsor step when the sponsor resolves. -/
theorem txSum_directSponsorTxs (bid : String) (price : ℚ) (users : List User)
    (s : MonolineCommissionStructure) (buyer sponsor : User)
    (hs : buyer.sponsorId.bind (findUser users) = some sponsor) :
    txSum (directSponsorTxs bid price users s buyer) = s.directSponsorBonus.amount := by
  unfold directSponsorTxs
  rw [hs]
  simp [txSum]

/-- With the default commission structure, a buyer whose resolved upline
chain is a full seven levels gets a grand total (paid + passive pool +
company fund with forfeitures) of exactly 19, independently of which
levels are active: the seven listed level amounts sum to 6.90, not the
declared `totalAmount` of 7.90. -/
theorem monoline_full_chain_total (bid : String) (price : ℚ) (users : List User) (buyer : User)
    (hb : findUser users bid = some buyer)
    (hlen : (getUplineChain buyer users 7).length = 7) :
    (calculateMonolineCommissions bid price users none).map
      (fun r => r.totalDistributed + r.passivePoolAmount + r.companyFundAmount) =
      Except.ok 19 := by
  have hchain : ∃ sponsor, buyer.sponsorId.bind (findUser users) = some sponsor := by
    cases hs : buyer.sponsorId.bind (findUser users) with
    | none =>
      exfalso
      have hnil : getUplineChain buyer users 7 = [] := by
        rw [show (7 : Nat) = 6 + 1 from rfl, getUplineChain, hs]
      rw [hnil] at hlen
      simp at hlen
    | some sponsor => exact ⟨sponsor, rfl⟩
  obtain ⟨sponsor, hs⟩ := hchain
  simp only [calculateMonolineCommissions, hb, Except.map, Option.getD]
  have hsum := depthFold_sum getDefaultCommissionStructure bid price
    (getUplineChain buyer users 7).enum
    (directSponsorTxs bid price users getDefaultCommissionStructure buyer, 0)
  rw [enum_levelAmount_sum, hlen] at hsum
  have hlevels : ((List.range 7).map (levelAmountAt getDefaultCommissionStructure)).sum
      = 6.9 := by
    simp [List.range_succ, levelAmountAt, depthLevels, getDefaultCommissionStructure]
    norm_num
  rw [hlevels, txSum_directSponsorTxs bid price users _ buyer sponsor hs] at hsum
  congr 1
  have h01 : getDefaultCommissionStructure.passiveIncomePool.amount = 0.1 := by
    norm_num [getDefaultCommissionStructure]
  have h9 : getDefaultCommissionStructure.companyFund.amount = 9 := by
    norm_num [getDefaultCommissionStructure]
  have h3 : getDefaultCommissionStructure.directSponsorBonus.amount = 3 := rfl
  rw [h3] at hsum
  rw [h01, h9]
  have e69 : (6.9 : ℚ) = 69 / 10 := by norm_num
  have e01 : (0.1 : ℚ) = 1 / 10 := by norm_num
  rw [e69] at hsum
  rw [e01]
  linarith [hsum]

/-! ## Claim theorems -/

/-- C1: the exact-sum invariant of the monoline engine fails even in the
most favourable snapshot — buyer `b` of `usersC1` has a full seven-level,
fully-active upline chain, every level and the sponsor bonus are paid
(8 transactions, no forfeiture), yet paid + passive pool + company fund
is 19, not the product price 20: the structure's listed level amounts sum
to 6.90 although its own `totalAmount` field declares 7.90. -/
theorem monoline_exact_sum_fails_on_best_case :
    (calculateMonolineCommissions "b" 20 usersC1 none).map
      (fun r => (r.totalDistributed + r.passivePoolAmount + r.companyFundAmount,
                 r.inactiveCommissionsToCompany, r.transactions.length)) =
      Except.ok (19, 0, 8) ∧ (19 : ℚ) ≠ 20 := by
  constructor
  · simp [calculateMonolineCommissions, usersC1, mkMember, findUser, getUplineChain,
      directSponsorTxs, depthStep, depthLevels, checkUserActivity, getMembershipRequirements,
      getDefaultCommissionStructure, jsOr, txSum, walletZ, careerZ, Except.map,
      List.find?, List.enum, List.foldl]
    norm_num
  · norm_num

/-- C4: the activity evaluator returns exactly four booleans computed
with inclusive comparisons against the configured thresholds (monthly 20,
annual 200, initial 100), `isFullyActive` being their conjunction; in
particular monthly sales of 19 give `isMonthlyActive = false` and exactly
20 give `true` (and full activity). -/
theorem checkUserActivity_inclusive_thresholds :
    (∀ u : User,
      checkUserActivity u none =
        { isMonthlyActive := decide (20 ≤ u.monthlySalesVolume)
          isAnnuallyActive := decide (200 ≤ u.annualSalesVolume)
          isFullyActive := decide (20 ≤ u.monthlySalesVolume) &&
            decide (200 ≤ u.annualSalesVolume) && decide (100 ≤ u.totalInvestment)
          hasInitialPurchase := decide (100 ≤ u.totalInvestment) }) ∧
    getMembershipRequirements = ⟨⟨100, 5⟩, ⟨20, 1⟩, ⟨200, 10⟩⟩ ∧
    (checkUserActivity userM19 none).isMonthlyActive = false ∧
    (checkUserActivity userM19 none).isFullyActive = false ∧
    (checkUserActivity userM20 none).isMonthlyActive = true ∧
    (checkUserActivity userM20 none).isFullyActive = true := by
  refine ⟨fun u => ?_, rfl, by decide, by decide, by decide, by decide⟩
  simp [checkUserActivity, getMembershipRequirements, jsOr_zero]

/-- C10: a zero sales override is ignored — for stored positive volumes,
`checkUserActivity(user, {monthlySales: 0, annualSales: 0})` equals
`checkUserActivity(user)` with no override, because the `||` fallback
treats a zero override as absent. -/
theorem checkUserActivity_zero_override_ignored (u : User)
    (hm : 0 < u.monthlySalesVolume) (ha : 0 < u.annualSalesVolume) :
    checkUserActivity u (some ⟨0, 0⟩) = checkUserActivity u none := by
  have hm' : u.monthlySalesVolume ≠ 0 := ne_of_gt hm
  have ha' : u.annualSalesVolume ≠ 0 := ne_of_gt ha
  simp [checkUserActivity, jsOr]

theorem checkUserActivity_zero_override_ignored_witness :
    (0 : ℚ) < userM20.monthlySalesVolume ∧ (0 : ℚ) < userM20.annualSalesVolume ∧
    checkUserActivity userM20 (some ⟨0, 0⟩) = checkUserActivity userM20 none :=
  ⟨by decide, by decide,
    checkUserActivity_zero_override_ignored userM20 (by decide) (by decide)⟩

/-- C9 counterexample: `calculateMonolineCommissions` with a buyer id not
present in the snapshot does not return a structured failure result — it
throws (`Except.error`, the embedding of the `throw new Error('Buyer not
found')` statement). -/
theorem monoline_missing_buyer_throws :
    calculateMonolineCommissions "ghost" 20 usersC1 none =
      Except.error "Buyer not found" := rfl

/-- C9 (amended): for every snapshot not containing the buyer id, the
monoline calculation throws `'Buyer not found'`; the structured-failure
conversion happens in the HTTP route layer, not in this function. -/
theorem monoline_missing_buyer_always_throws (buyerId : String) (price : ℚ)
    (users : List User) (structO : Option MonolineCommissionStructure)
    (h : findUser users buyerId = none) :
    calculateMonolineCommissions buyerId price users structO =
      Except.error "Buyer not found" := by
  unfold calculateMonolineCommissions
  rw [h]

theorem monoline_missing_buyer_always_throws_witness :
    findUser usersC7 "ghost" = none ∧
    calculateMonolineCommissions "ghost" 20 usersC7 none =
      Except.error "Buyer not found" :=
  ⟨rfl, monoline_missing_buyer_always_throws "ghost" 20 usersC7 none rfl⟩

/-- C7: passive-pool distribution filters the snapshot by full activity,
splits the pool evenly (`amountPerMember = pool / activeMembers`), lists
exactly the active members as `pending` recipients each with that amount,
the per-member amount times the member count reconstitutes the pool
exactly (rationals carry no rounding), and zero active members yield the
explicit no-recipient result instead of a division error. -/
theorem calculatePassiveIncomeDistribution_even_split (pool : ℚ) (users : List User) :
    (calculatePassiveIncomeDistribution pool users).activeMembers =
      (users.filter (fun u => (checkUserActivity u none).isFullyActive)).length ∧
    (calculatePassiveIncomeDistribution pool users).recipients.length =
      (users.filter (fun u => (checkUserActivity u none).isFullyActive)).length ∧
    (∀ rec ∈ (calculatePassiveIncomeDistribution pool users).recipients,
      rec.status = "pending" ∧
      rec.amount = (calculatePassiveIncomeDistribution pool users).amountPerMember) ∧
    (0 < (users.filter (fun u => (checkUserActivity u none).isFullyActive)).length →
      (calculatePassiveIncomeDistribution pool users).amountPerMember *
        ((users.filter (fun u => (checkUserActivity u none).isFullyActive)).length : ℚ) =
        pool) ∧
    ((users.filter (fun u => (checkUserActivity u none).isFullyActive)).length = 0 →
      (calculatePassiveIncomeDistribution pool users).amountPerMember = 0 ∧
      (calculatePassiveIncomeDistribution pool users).recipients = []) := by
  refine ⟨rfl, by simp [calculatePassiveIncomeDistribution], ?_, ?_, ?_⟩
  · intro rec hrec
    simp only [calculatePassiveIncomeDistribution, List.mem_map] at hrec
    obtain ⟨u, _, rfl⟩ := hrec
    exact ⟨rfl, rfl⟩
  · intro hpos
    simp only [calculatePassiveIncomeDistribution, if_pos hpos]
    have hne : ((users.filter (fun u => (checkUserActivity u none).isFullyActive)).length : ℚ)
        ≠ 0 := by
      exact_mod_cast Nat.pos_iff_ne_zero.mp hpos
    field_simp
  · intro hzero
    constructor
    · simp [calculatePassiveIncomeDistribution, hzero]
    · simp only [calculatePassiveIncomeDistribution]
      rw [List.length_eq_zero] at hzero
      rw [hzero]
      rfl

theorem calculatePassiveIncomeDistribution_even_split_witness :
    0 < (usersC7.filter (fun u => (checkUserActivity u none).isFullyActive)).length ∧
    (calculatePassiveIncomeDistribution 10 usersC7).amountPerMember *
      ((usersC7.filter (fun u => (checkUserActivity u none).isFullyActive)).length : ℚ) = 10 :=
  ⟨by decide, (calculatePassiveIncomeDistribution_even_split 10 usersC7).2.2.2.1 (by decide)⟩

/-- C6 counterexample: `processCommissionTransaction` carries no
idempotency guard — applying the same transaction twice credits the
wallet twice, not once. -/
theorem processCommissionTransaction_double_credits :
    (processCommissionTransaction txC6 (processCommissionTransaction txC6 userC6)).wallet.balance
      = userC6.wallet.balance + 2 * txC6.amount ∧
    (processCommissionTransaction txC6 (processCommissionTransaction txC6 userC6)).wallet.balance
      ≠ userC6.wallet.balance + txC6.amount := by
  constructor
  · simp [processCommissionTransaction, txC6, userC6, mkMember, walletZ]
    norm_num
  · simp [processCommissionTransaction, txC6, userC6, mkMember, walletZ]

theorem dNCwalk_purchases (a : ℚ) (pid : String) :
    ∀ (n : Nat) (uid : String) (level : Nat) (db : ShopDb),
      (distributeNetworkCommissionsWalk a pid n uid level db).productPurchases =
        db.productPurchases := by
  intro n
  induction n with
  | zero => intro uid level db; rfl
  | succ m ih =>
    intro uid level db
    simp only [distributeNetworkCommissionsWalk]
    cases (findUser db.users uid).bind (fun u => u.sponsorId.bind (findUser db.users)) with
    | none => rfl
    | some sp => rw [ih]

theorem findPurchase_setPurchaseDistributed (purchases : List ProductPurchase)
    (pid : String) (p : ProductPurchase) (h : findPurchase purchases pid = some p) :
    findPurchase (setPurchaseDistributed purchases pid) pid =
      some { p with commissionsDistributed := true } := by
  induction purchases with
  | nil => simp [findPurchase] at h
  | cons q rest ih =>
    by_cases hq : q.id = pid
    · have hqp : q = p := by
        simp [findPurchase, List.find?, hq] at h
        exact h
      subst hqp
      simp [setPurchaseDistributed, findPurchase, List.find?, hq]
    · simp only [setPurchaseDistributed, if_neg hq]
      simp [findPurchase, List.find?, hq] at h ⊢
      exact ih h

theorem distributeNetworkCommissions_purchases (db : ShopDb) (uid : String) (a : ℚ)
    (pid : String) :
    (distributeNetworkCommissions db uid a pid).productPurchases = db.productPurchases := by
  unfold distributeNetworkCommissions
  exact dNCwalk_purchases _ pid 7 uid 1 db

/-- C6 (amended): idempotence holds at the level of the originating
purchase record — `distributeProductCommissions` checks the
`commissionsDistributed` flag first and sets it last, so re-running the
distribution on the re-fetched purchase is a no-op (no wallet is credited
twice); `processCommissionTransaction` itself carries no per-transaction
guard and double-credits when applied twice. -/
theorem distributeProductCommissions_idempotent (db : ShopDb) (p : ProductPurchase)
    (hfound : findPurchase db.productPurchases p.id = some p) :
    ∀ q, findPurchase (distributeProductCommissions db p).productPurchases p.id = some q →
      q.commissionsDistributed = true ∧
      distributeProductCommissions (distributeProductCommissions db p) q =
        distributeProductCommissions db p := by
  by_cases hflag : p.commissionsDistributed
  · have h1 : distributeProductCommissions db p = db := by
      unfold distributeProductCommissions
      rw [if_pos hflag]
    intro q hq
    rw [h1] at hq ⊢
    rw [hfound] at hq
    obtain rfl : p = q := Option.some.inj hq
    refine ⟨hflag, ?_⟩
    unfold distributeProductCommissions
    rw [if_pos hflag]
  · have hpur : (distributeProductCommissions db p).productPurchases =
        setPurchaseDistributed db.productPurchases p.id := by
      unfold distributeProductCommissions
      rw [if_neg hflag]
      simp only [distributeNetworkCommissions_purchases]
      cases p.sponsorId.bind (findUser db.users) with
      | none => rfl
      | some sponsor => rfl
    intro q hq
    rw [hpur, findPurchase_setPurchaseDistributed db.productPurchases p.id p hfound] at hq
    obtain rfl : { p with commissionsDistributed := true } = q := Option.some.inj hq
    refine ⟨rfl, ?_⟩
    conv_lhs => rw [distributeProductCommissions]
    rfl

theorem distributeProductCommissions_idempotent_witness :
    findPurchase dbC6.productPurchases purchaseC6.id = some purchaseC6 ∧
    (({ purchaseC6 with commissionsDistributed := true }).commissionsDistributed = true ∧
      distributeProductCommissions (distributeProductCommissions dbC6 purchaseC6)
        { purchaseC6 with commissionsDistributed := true } =
        distributeProductCommissions dbC6 purchaseC6) :=
  ⟨rfl, distributeProductCommissions_idempotent dbC6 purchaseC6 rfl
    { purchaseC6 with commissionsDistributed := true } (by rfl)⟩

/-- C2 counterexample: in `usersC2` the buyer's level-1 sponsor `s1` is
inactive while `s2` above it is active with a positive passive rate; the
classic passive-income distribution terminates at `s1` without visiting
or paying `s2` — the whole state is unchanged. -/
theorem passive_income_does_not_skip_inactive :
    distributePassiveIncome 50 7 "b" usersC2 = usersC2 ∧
    (findUser usersC2 "s2").map (fun v => v.wallet.passiveIncome) = some 0 := by
  exact ⟨rfl, rfl⟩

theorem classicSponsorPhase_frame (investment : ℚ) (sid : String) (users : List User)
    (X : String) (hX : X ≠ sid) :
    findUser (classicSponsorPhase investment sid users) X = findUser users X := by
  unfold classicSponsorPhase
  cases hsp : findUser users sid with
  | none => rfl
  | some sp =>
    by_cases hact : sp.isActive
    · simp only [hact, if_true]
      rw [findUser_updateFirst users sp.id X _ (creditSponsorBonus_id _)]
      rw [findUser_id hsp]
      rw [if_neg hX]
    · simp [hact]

theorem sponsorUplineIds_classicSponsorPhase (investment : ℚ) (sid : String)
    (users : List User) (n : Nat) (v : String) :
    sponsorUplineIds (classicSponsorPhase investment sid users) n v =
      sponsorUplineIds users n v := by
  unfold classicSponsorPhase
  cases hsp : findUser users sid with
  | none => rfl
  | some sp =>
    by_cases hact : sp.isActive
    · simp only [hact, if_true]
      exact sponsorUplineIds_updateFirst users sp.id _
        (creditSponsorBonus_id _) (creditSponsorBonus_sponsorId _) n v
    · simp [hact]

/-- C2 (amended): the classic passive-income walk stops at a sponsor that
is inactive or has a non-positive career passive rate (sponsors above it
are not visited), exactly like the depth-bonus traversal stops at an
inactive upline member; the recursion continues only through sponsors
that pass the activity/rate gate. -/
theorem passive_walk_stops_like_depth_bonus (users : List User) (uid sid : String)
    (u sp : User) (amount : ℚ)
    (hu : findUser users uid = some u) (hs : u.sponsorId = some sid)
    (hsp : findUser users sid = some sp) :
    ((sp.isActive = false ∨ sp.careerLevel.passiveIncomeRate ≤ 0) →
      ∀ levels, distributePassiveIncome amount levels uid users = users) ∧
    (sp.isActive = false →
      ∀ rates, distributeBinaryCommissions amount rates uid users = users) := by
  constructor
  · intro hgate levels
    cases levels with
    | zero => rfl
    | succ m =>
      have hneg : ¬(sp.isActive = true ∧ 0 < sp.careerLevel.passiveIncomeRate) := by
        rcases hgate with h | h
        · rintro ⟨h1, _⟩
          rw [h] at h1
          exact Bool.false_ne_true h1
        · rintro ⟨_, h2⟩
          exact absurd h2 (not_lt.mpr h)
      simp only [distributePassiveIncome, hu, Option.some_bind, hs, hsp]
      simp only [if_neg hneg]
  · intro hact rates
    cases rates with
    | nil => rfl
    | cons r rest =>
      simp only [distributeBinaryCommissions, hu, Option.some_bind, hs, hsp]
      simp [hact]

theorem passive_walk_stops_like_depth_bonus_witness :
    findUser usersC2 "s1" = some (mkMember "s1" (some "s2") false 20 200 100 careerP) ∧
    distributePassiveIncome 99 3 "b" usersC2 = usersC2 ∧
    distributeBinaryCommissions 99 [0.5, 0.25] "b" usersC2 = usersC2 := by
  refine ⟨rfl, ?_, ?_⟩
  · exact (passive_walk_stops_like_depth_bonus usersC2 "b" "s1"
      (mkMember "b" (some "s1") true 20 200 100 careerP)
      (mkMember "s1" (some "s2") false 20 200 100 careerP) 99 rfl rfl rfl).1
      (Or.inl rfl) 3
  · exact (passive_walk_stops_like_depth_bonus usersC2 "b" "s1"
      (mkMember "b" (some "s1") true 20 200 100 careerP)
      (mkMember "s1" (some "s2") false 20 200 100 careerP) 99 rfl rfl rfl).2
      rfl [0.5, 0.25]

/-- C3 counterexample: for a member with no sponsor the classic engine
returns before paying anything — the admin root member's balance does not
increase by 60% of the investment (it does not change at all). -/
theorem classic_no_sponsor_pays_no_system_fund :
    calculateAndDistributeCommissions 1000 "b" usersC3x = usersC3x ∧
    (findUser usersC3x "adm").map (fun a => a.wallet.balance) = some 0 ∧
    (0 : ℚ) ≠ 0 + 1000 * 0.6 := by
  refine ⟨rfl, rfl, by norm_num⟩

/-- C3 (amended): when the acting member exists and has a sponsor, and
the admin root member (found by its configured email) is neither that
sponsor nor in the member's seven-level upline chain, the system-fund
step credits the admin's balance with exactly 60% of the investment and
touches no other member's record; a member with no sponsor triggers no
distribution at all (see the counterexample). -/
theorem classic_system_fund_to_admin (investment : ℚ) (userId sid : String)
    (users : List User) (u admin : User)
    (hu : findUser users userId = some u) (hs : u.sponsorId = some sid)
    (hadmin0 : findUser users admin.id = some admin)
    (hadmin3 : findUserByEmail (classicPhases123 investment userId sid users) adminEmail =
      some admin)
    (hns : admin.id ≠ sid)
    (hnc : admin.id ∉ sponsorUplineIds users 7 userId) :
    findUser (calculateAndDistributeCommissions investment userId users) admin.id =
      some { admin with wallet := { admin.wallet with
        balance := admin.wallet.balance + investment * 0.6 } } ∧
    ∀ X, X ≠ admin.id →
      findUser (calculateAndDistributeCommissions investment userId users) X =
        findUser (classicPhases123 investment userId sid users) X := by
  have hcalc : calculateAndDistributeCommissions investment userId users =
      updateFirst (classicPhases123 investment userId sid users) admin.id
        (creditBalance (investment * 0.6)) := by
    unfold calculateAndDistributeCommissions
    rw [hu]
    simp only [Option.some_bind, hs]
    rw [hadmin3]
  have hchain1 : sponsorUplineIds (classicSponsorPhase investment sid users) 7 userId =
      sponsorUplineIds users 7 userId :=
    sponsorUplineIds_classicSponsorPhase investment sid users 7 userId
  have hlen : commissionRates.length = 7 := rfl
  have h1 : findUser (classicSponsorPhase investment sid users) admin.id =
      findUser users admin.id :=
    classicSponsorPhase_frame investment sid users admin.id hns
  have h2 : findUser (distributeBinaryCommissions (investment * 0.25) commissionRates userId
        (classicSponsorPhase investment sid users)) admin.id =
      findUser (classicSponsorPhase investment sid users) admin.id := by
    apply distributeBinaryCommissions_frame
    rw [hlen, hchain1]
    exact hnc
  have hchain2 : sponsorUplineIds (distributeBinaryCommissions (investment * 0.25)
        commissionRates userId (classicSponsorPhase investment sid users)) 7 userId =
      sponsorUplineIds users 7 userId := by
    rw [sponsorUplineIds_distributeBinaryCommissions, hchain1]
  have h3 : findUser (classicPhases123 investment userId sid users) admin.id =
      some admin := by
    unfold classicPhases123
    rw [distributePassiveIncome_frame _ 7 userId _ admin.id (by rw [hchain2]; exact hnc)]
    rw [h2, h1, hadmin0]
  constructor
  · rw [hcalc]
    rw [findUser_updateFirst _ admin.id admin.id _ (creditBalance_id _)]
    rw [if_pos rfl, h3]
    rfl
  · intro X hX
    rw [hcalc]
    rw [findUser_updateFirst _ admin.id X _ (creditBalance_id _)]
    rw [if_neg hX]

theorem classic_system_fund_to_admin_witness :
    ("adm" : String) ≠ "s" ∧
    findUser (calculateAndDistributeCommissions 1000 "b" usersC3w) "adm" =
      some { ({ mkMember "adm" none true 20 200 100 careerZ with email := adminEmail }) with
        wallet := { walletZ with balance := walletZ.balance + 1000 * 0.6 } } := by
  constructor
  · decide
  · exact (classic_system_fund_to_admin 1000 "b" "s" usersC3w
      (mkMember "b" (some "s") true 20 200 100 careerZ)
      ({ mkMember "adm" none true 20 200 100 careerZ with email := adminEmail })
      rfl rfl rfl rfl (by decide) (by decide)).1

/-- C5: one step of the weakest-leg descent — an empty left slot (or an
unresolvable left child) is filled first, an empty right slot next; with
both slots occupied the search recurses into the leg whose subtree scores
strictly lower under the requested algorithm (ties descend left), bumping
the reported depth by one; and the per-algorithm score is raw team size,
raw volume, max depth, or the weighted `calculateLegScore` composite. -/
theorem findWeakestLeg_fills_empty_then_descends_weaker (users : List User)
    (alg : PlacementAlgorithm) (fuel : Nat) (uid : String) (u : User)
    (hu : findUser users uid = some u) :
    (u.leftChild.bind (findUser users) = none →
      findWeakestLeg users alg (fuel + 1) uid = some ⟨uid, .left, 1, 0⟩) ∧
    (∀ lc, u.leftChild.bind (findUser users) = some lc →
      u.rightChild.bind (findUser users) = none →
      findWeakestLeg users alg (fuel + 1) uid = some ⟨uid, .right, 1, 0⟩) ∧
    (∀ lc rc, u.leftChild.bind (findUser users) = some lc →
      u.rightChild.bind (findUser users) = some rc →
      (legScoreFor users alg lc.id ≤ legScoreFor users alg rc.id →
        findWeakestLeg users alg (fuel + 1) uid =
          (findWeakestLeg users alg fuel lc.id).map
            (fun r => { r with depth := r.depth + 1 })) ∧
      (legScoreFor users alg rc.id < legScoreFor users alg lc.id →
        findWeakestLeg users alg (fuel + 1) uid =
          (findWeakestLeg users alg fuel rc.id).map
            (fun r => { r with depth := r.depth + 1 }))) ∧
    (legScoreFor users .size_based uid = ((getDetailedLegStats users uid).teamSize : ℚ) ∧
      legScoreFor users .volume_based uid = (getDetailedLegStats users uid).volume ∧
      legScoreFor users .depth_first uid = ((getDetailedLegStats users uid).maxDepth : ℚ) ∧
      legScoreFor users .balanced uid = calculateLegScore (getDetailedLegStats users uid)) := by
  refine ⟨?_, ?_, ?_, rfl, rfl, rfl, rfl⟩
  · intro hlc
    simp only [findWeakestLeg, hu, hlc]
  · intro lc hlc hrc
    simp only [findWeakestLeg, hu, hlc, hrc]
  · intro lc rc hlc hrc
    constructor
    · intro hle
      simp only [findWeakestLeg, hu, hlc, hrc]
      rw [if_pos hle]
    · intro hlt
      simp only [findWeakestLeg, hu, hlc, hrc]
      rw [if_neg (not_le.mpr hlt)]

theorem findWeakestLeg_fills_empty_then_descends_weaker_witness :
    legScoreFor usersC5 .balanced "rgt" < legScoreFor usersC5 .balanced "lft" ∧
    findWeakestLeg usersC5 .balanced (1 + 1) "r" =
      (findWeakestLeg usersC5 .balanced 1 "rgt").map
        (fun r => { r with depth := r.depth + 1 }) := by
  have hscore : legScoreFor usersC5 .balanced "rgt" < legScoreFor usersC5 .balanced "lft" := by
    simp [legScoreFor, calculateLegScore, getDetailedLegStats, getTotalTeamSize,
      getTeamVolume, getAllTeamMembers, calculateMaxDepth, getDirectReferrals, findUser,
      usersC5, mkMember, walletZ, careerZ, List.filter]
    norm_num
  refine ⟨hscore, ?_⟩
  exact ((findWeakestLeg_fills_empty_then_descends_weaker usersC5 .balanced 1 "r"
    ({ mkMember "r" none true 20 200 100 careerZ with
        leftChild := some "lft", rightChild := some "rgt" }) rfl).2.2.1
    (mkMember "lft" none true 20 200 100 careerZ)
    (mkMember "rgt" none true 0 0 0 careerZ) rfl rfl).2 hscore

theorem jsOrOptNat_seven_pos (a : Option Nat) : 1 ≤ jsOrOptNat a 7 := by
  cases a with
  | none => simp [jsOrOptNat]
  | some n =>
    simp only [jsOrOptNat]
    by_cases h : n = 0
    · simp [h]
    · rw [if_neg h]
      omega

theorem fapAux_depth_bound (users : List User) (maxD : Nat) :
    ∀ (fuel : Nat) (s : String) (d : Nat) (p : AvailablePosition),
      p ∈ fapAux users maxD fuel s d → d ≤ p.depth ∧ p.depth ≤ maxD := by
  intro fuel
  induction fuel with
  | zero => intro s d p hp; simp [fapAux] at hp
  | succ m ih =>
    intro s d p hp
    simp only [fapAux] at hp
    by_cases hgt : maxD < d
    · rw [if_pos hgt] at hp
      simp at hp
    · rw [if_neg hgt] at hp
      cases hu : findUser users s with
      | none =>
        rw [hu] at hp
        simp at hp
      | some u =>
        rw [hu] at hp
        rcases List.mem_append.mp hp with hl | hr
        · cases hlc : u.leftChild with
          | none =>
            rw [hlc] at hl
            simp only [List.mem_singleton] at hl
            subst hl
            exact ⟨le_refl _, not_lt.mp hgt⟩
          | some lc =>
            rw [hlc] at hl
            have := ih lc (d + 1) p hl
            omega
        · cases hrc : u.rightChild with
          | none =>
            rw [hrc] at hr
            simp only [List.mem_singleton] at hr
            subst hr
            exact ⟨le_refl _, not_lt.mp hgt⟩
          | some rc =>
            rw [hrc] at hr
            have := ih rc (d + 1) p hr
            omega

/-- Unfolding equation of the candidate enumeration within the bound: the
start node reports its own open slots at the current depth and recurses
into occupied children at depth + 1. -/
theorem findAvailablePositions_step (users : List User) (s : String) (maxD d : Nat)
    (hd : d ≤ maxD) (u : User) (hu : findUser users s = some u) :
    findAvailablePositions users s maxD d =
      (match u.leftChild with
       | none => [⟨s, .left, d⟩]
       | some lc => findAvailablePositions users lc maxD (d + 1)) ++
      (match u.rightChild with
       | none => [⟨s, .right, d⟩]
       | some rc => findAvailablePositions users rc maxD (d + 1)) := by
  have hfuel : maxD + 2 - d = (maxD + 2 - (d + 1)) + 1 := by omega
  unfold findAvailablePositions
  rw [hfuel]
  simp only [fapAux]
  rw [if_neg (not_lt.mpr hd), hu]

theorem no_positions_means_children_full (users : List User) (s : String) (maxD : Nat)
    (hmax : 1 ≤ maxD) (u : User) (hu : findUser users s = some u)
    (hempty : findAvailablePositions users s maxD 1 = []) :
    u.leftChild ≠ none ∧ u.rightChild ≠ none := by
  rw [findAvailablePositions_step users s maxD 1 hmax u hu] at hempty
  rw [List.append_eq_nil] at hempty
  obtain ⟨hl, hr⟩ := hempty
  constructor
  · intro hnone
    rw [hnone] at hl
    simp at hl
  · intro hnone
    rw [hnone] at hr
    simp at hr

/-- When the bounded search finds no open slot, `enhancedAutoPlacement`
returns the structured no-placement failure (success `false`, the
"Uygun yerleştirme pozisyonu bulunamadı." message, and the attempted
algorithm's name) and leaves the member list unchanged. -/
theorem enhancedAutoPlacement_no_slot_failure (users : List User) (fuel : Nat)
    (newUserId sponsorId : String) (prefs : PlacementPreferences) (u : User)
    (hu : findUser users sponsorId = some u)
    (hempty : findAvailablePositions users sponsorId (jsOrOptNat prefs.maxDepth 7) 1 = []) :
    enhancedAutoPlacement users (fuel + 1) newUserId sponsorId prefs =
      (⟨false, none, "Uygun yerleştirme pozisyonu bulunamadı.",
        algName (prefs.algorithm.getD .balanced)⟩, users) := by
  obtain ⟨hlc, hrc⟩ := no_positions_means_children_full users sponsorId
    (jsOrOptNat prefs.maxDepth 7) (jsOrOptNat_seven_pos prefs.maxDepth) u hu hempty
  have hopt : findOptimalPlacement users sponsorId (prefs.algorithm.getD .balanced)
      (jsOrOptNat prefs.maxDepth 7) prefs = none := by
    unfold findOptimalPlacement
    rw [hempty]
  simp only [enhancedAutoPlacement, hu]
  have hshort : (match prefs.preferredSide with
      | some PreferredSide.left => if u.leftChild = none then some Side.left else none
      | some PreferredSide.right => if u.rightChild = none then some Side.right else none
      | _ => none) = (none : Option Side) := by
    cases hps : prefs.preferredSide with
    | none => rfl
    | some ps =>
      cases ps with
      | left => simp [hlc]
      | right => simp [hrc]
      | auto => rfl
  rw [hshort, hopt]

/-- C8: the placement search is bounded — every enumerated candidate
sits between the entry depth and `maxSearchDepth`, the enumeration
recurses into occupied children with the reported depth increased by one
per hop, and when no open slot exists within the bound the placement
operation returns the explicit structured no-placement failure (success
`false`, message, attempted algorithm name) with the member list
unchanged. -/
theorem placement_search_bounded_with_explicit_failure :
    (∀ (users : List User) (s : String) (maxD d : Nat) (p : AvailablePosition),
      p ∈ findAvailablePositions users s maxD d → d ≤ p.depth ∧ p.depth ≤ maxD) ∧
    (∀ (users : List User) (s : String) (maxD d : Nat) (u : User), d ≤ maxD →
      findUser users s = some u →
      findAvailablePositions users s maxD d =
        (match u.leftChild with
         | none => [⟨s, .left, d⟩]
         | some lc => findAvailablePositions users lc maxD (d + 1)) ++
        (match u.rightChild with
         | none => [⟨s, .right, d⟩]
         | some rc => findAvailablePositions users rc maxD (d + 1))) ∧
    (∀ (users : List User) (fuel : Nat) (newUserId sponsorId : String)
      (prefs : PlacementPreferences) (u : User),
      findUser users sponsorId = some u →
      findAvailablePositions users sponsorId (jsOrOptNat prefs.maxDepth 7) 1 = [] →
      enhancedAutoPlacement users (fuel + 1) newUserId sponsorId prefs =
        (⟨false, none, "Uygun yerleştirme pozisyonu bulunamadı.",
          algName (prefs.algorithm.getD .balanced)⟩, users)) := by
  refine ⟨?_, ?_, ?_⟩
  · intro users s maxD d p hp
    exact fapAux_depth_bound users maxD (maxD + 2 - d) s d p hp
  · intro users s maxD d u hd hu
    exact findAvailablePositions_step users s maxD d hd u hu
  · intro users fuel newUserId sponsorId prefs u hu hempty
    exact enhancedAutoPlacement_no_slot_failure users fuel newUserId sponsorId prefs u hu hempty

theorem placement_search_bounded_with_explicit_failure_witness :
    ((⟨"lft", Side.left, 2⟩ : AvailablePosition) ∈ findAvailablePositions usersC8 "r" 7 1) ∧
    (1 ≤ 2 ∧ 2 ≤ 7) ∧
    enhancedAutoPlacement usersC8 (1 + 1) "new" "r" prefsC8 =
      (⟨false, none, "Uygun yerleştirme pozisyonu bulunamadı.", "balanced"⟩, usersC8) := by
  refine ⟨by decide, ?_, ?_⟩
  · exact placement_search_bounded_with_explicit_failure.1 usersC8 "r" 7 1
      ⟨"lft", Side.left, 2⟩ (by decide)
  · exact placement_search_bounded_with_explicit_failure.2.2 usersC8 1 "new" "r" prefsC8
      ({ mkMember "r" none true 20 200 100 careerZ with
          leftChild := some "lft", rightChild := some "rgt" }) rfl (by decide)
